import Mathlib

/-!
Quote computation and backend integration of the loan frontends.

A shallow embedding of `src/membership/main.go` and `src/orders/main.go`.

Conventions of the embedding.

* A Go `string` is a sequence of bytes. It is represented by a Lean `String`
  holding one character per byte, so ASCII text is represented by itself and
  `len(s)` is the number of characters.
* A Go `int` is the 64-bit two's complement integer of the 64-bit targets
  (`strconv.IntSize = 64`). Values are carried in `Int`; the one operation of
  the program that can leave the range, the product in `offerQuote`, is
  wrapped explicitly with `wrapInt`.
* The network is an input: the outcome of every outbound `http.Get` is given
  by a function of the URL host (`BackendHost:BackendPort`) and the path.
* Log output is not part of the state that is modelled.
-/

set_option maxRecDepth 8000

/-! ## Go `int` arithmetic -/

/-- Width of the Go type `int` in bits. -/
def intSize : Nat := 64

/-- Smallest value of the Go type `int`. -/
def minInt : Int := -(2 ^ 63)

/-- Largest value of the Go type `int`. -/
def maxInt : Int := 2 ^ 63 - 1

/-- Two's complement reduction of a mathematical integer to the Go type `int`. -/
def wrapInt (x : Int) : Int := (x + 2 ^ 63) % 2 ^ 64 - 2 ^ 63

/-! ## The parts of the Go standard library the program calls -/

namespace strconv

/-- The two error kinds `strconv` reports for a numeric conversion. -/
inductive NumError where
  | ErrSyntax
  | ErrRange
  deriving DecidableEq

/-- The byte subtraction `ch -= '0'` of the fast path of `Atoi`: it wraps
around for a byte below `'0'`. -/
def subZero (c : Char) : Nat :=
  if c.toNat < 48 then c.toNat + 256 - 48 else c.toNat - 48

/-- The digit loop of the fast path of `Atoi`; `none` stands for the syntax
error. At most 18 digits are read, so `n*10 + ch` stays inside `int`. -/
def atoiFastLoop : List Char → Int → Option Int
  | [], n => some n
  | c :: cs, n =>
    let ch := subZero c
    if ch > 9 then none else atoiFastLoop cs (n * 10 + (ch : Int))

/-- The helper `lower` of `strconv`: `c | ('x' - 'X')`. -/
def lower (c : Nat) : Nat := c ||| 0x20

/-- Largest value of `uint64`. -/
def maxUint64 : Nat := 2 ^ 64 - 1

/-- The loop of `ParseUint` for `base = 10` and `bitSize = 0` (so underscores
are not accepted, `cutoff = maxUint64/10 + 1` and `maxVal = 1<<64 - 1`). The
accumulator `n` is a `uint64`. -/
def parseUintLoop : List Char → Nat → Nat × Option NumError
  | [], n => (n, none)
  | c :: cs, n =>
    let b := c.toNat
    let cutoff := maxUint64 / 10 + 1
    let maxVal := maxUint64
    let step : Nat → Nat × Option NumError := fun d =>
      if d ≥ 10 then (0, some .ErrSyntax)
      else if n ≥ cutoff then (maxVal, some .ErrRange)
      else
        let n10 := (n * 10) % 2 ^ 64
        let n1 := (n10 + d) % 2 ^ 64
        if n1 < n10 ∨ n1 > maxVal then (maxVal, some .ErrRange)
        else parseUintLoop cs n1
    if 48 ≤ b ∧ b ≤ 57 then step (b - 48)
    else if 97 ≤ lower b ∧ lower b ≤ 122 then step (lower b - 97 + 10)
    else (0, some .ErrSyntax)

/-- The function `ParseUint(s, 10, 0)`. -/
def ParseUint (s : List Char) : Nat × Option NumError :=
  if s = [] then (0, some .ErrSyntax) else parseUintLoop s 0

/-- The function `ParseInt(s, 10, 0)`. -/
def ParseInt (s : List Char) : Int × Option NumError :=
  match s with
  | [] => (0, some .ErrSyntax)
  | c0 :: t =>
    let neg : Bool := decide (c0 ≠ '+' ∧ c0 = '-')
    let rest := if c0 = '+' then t else if c0 = '-' then t else c0 :: t
    let r := ParseUint rest
    let un := r.1
    if r.2 = some .ErrSyntax then (0, r.2)
    else
      let cutoff : Nat := 2 ^ (intSize - 1)
      if neg = false ∧ un ≥ cutoff then ((cutoff : Int) - 1, some .ErrRange)
      else if neg = true ∧ un > cutoff then (-(cutoff : Int), some .ErrRange)
      else
        let n := wrapInt (un : Int)
        (if neg then wrapInt (-n) else n, none)

/-- The function `strconv.Atoi`: the value and the error (`none` is `nil`). -/
def Atoi (s : String) : Int × Option NumError :=
  let s0 := s.toList
  let sLen := s0.length
  if (intSize = 32 ∧ 0 < sLen ∧ sLen < 10) ∨ (intSize = 64 ∧ 0 < sLen ∧ sLen < 19) then
    match s0 with
    | [] => (0, some .ErrSyntax)
    | c0 :: t =>
      let body := if c0 = '-' ∨ c0 = '+' then t else s0
      if (c0 = '-' ∨ c0 = '+') ∧ body.length < 1 then (0, some .ErrSyntax)
      else
        match atoiFastLoop body 0 with
        | none => (0, some .ErrSyntax)
        | some n => (if c0 = '-' then -n else n, none)
  else ParseInt s0

end strconv

namespace fmt

/-- The verb `%d` applied to an `int`: an optional minus sign and the decimal
digits of the magnitude. -/
def fmtInteger (v : Int) : List Char :=
  (if v < 0 then ['-'] else []) ++ Nat.toDigits 10 v.natAbs

/-- The formatting loop of `Sprintf` for the verbs the program uses, `%d`
and `%%`, over `int` operands. -/
def doPrintf : List Char → List Int → List Char
  | '%' :: '%' :: rest, args => '%' :: doPrintf rest args
  | '%' :: 'd' :: rest, a :: args => fmtInteger a ++ doPrintf rest args
  | c :: rest, args => c :: doPrintf rest args
  | [], _ => []

/-- The function `fmt.Sprintf` on a format and `int` operands. -/
def Sprintf (format : String) (args : List Int) : String :=
  String.mk (doPrintf format.toList args)

end fmt

/-! ## The HTTP substrate -/

/-- The outcome of one `http.Get`: a transport error, or a response with its
status code and its body, where `none` is a body that could not be read. -/
inductive HttpOutcome where
  | transportError
  | response (statusCode : Nat) (body : Option String)
  deriving DecidableEq

/-- The network seen by one request: the outcome of a GET, by URL host
(`host:port`) and path. -/
abbrev Network := String → String → HttpOutcome

/-- The constant `http.StatusOK`. -/
def StatusOK : Nat := 200

/-- The errors `callBackend` returns: `errors.New("Could not access " + url)`
and the error of reading the body. -/
inductive BackendError where
  | couldNotAccess
  | readFailed
  deriving DecidableEq

/-- A backend call fails, in the words of the specification, on a transport
error, on any status other than 200, and when the body cannot be read. -/
def HttpOutcome.isFailure : HttpOutcome → Bool
  | .transportError => true
  | .response statusCode body => decide (statusCode ≠ StatusOK) || body.isNone

/-- The type `url.Values`: a map from a key to its list of values. -/
abbrev Values := List (String × List String)

/-- The method `url.Values.Get`: the first value of the key, or the empty
text when the key has no value. -/
def Values.Get (v : Values) (key : String) : String :=
  match v.lookup key with
  | some (first :: _) => first
  | _ => ""

/-- The part of `*http.Request` the program reads: whether `ParseForm`
returns an error, and the form it leaves in `r.Form`. -/
structure Request where
  parseFormFails : Bool
  Form : Values
  deriving DecidableEq

/-! ## The membership frontend -/

namespace membership

/-- The type `MembershipApplication` of `src/membership/main.go`. -/
structure MembershipApplication where
  AppVersion : String
  BackendVersion : String
  BackendHost : String
  BackendPort : String
  MembershipAmount : Int
  MembershipResult : String
  deriving DecidableEq

/-- The function `parseMembershipAmount`: zero when `ParseForm` fails or when `Atoi`
reports an error on the value of the form field `"Membership"`. -/
def parseMembershipAmount (r : Request) : Int :=
  if r.parseFormFails then 0
  else
    let postParameter := r.Form.Get "Membership"
    let converted := strconv.Atoi postParameter
    if converted.2 ≠ none then 0 else converted.1

/-- The function `offerQuote` of `src/membership/main.go`. -/
def offerQuote (Membership : Int) (interest : Int) : String :=
  if Membership ≤ 0 then ""
  else
    let total := Int.tdiv (wrapInt (Membership * interest)) 100
    fmt.Sprintf "With rate %d%% you will pay  %d extra interest" [interest, total]

/-- The method `callBackend`: the body and the error (`none` is `nil`). The
URL it fetches has host `BackendHost + ":" + BackendPort` and the given path. -/
def callBackend (MembershipApp : MembershipApplication) (net : Network) (path : String) :
    String × Option BackendError :=
  match net (MembershipApp.BackendHost ++ ":" ++ MembershipApp.BackendPort) path with
  | .transportError => ("", some .couldNotAccess)
  | .response statusCode body =>
    if statusCode ≠ StatusOK then ("", some .couldNotAccess)
    else
      match body with
      | none => ("", some .readFailed)
      | some text => (text, none)

/-- The method `findBackendVersion`. -/
def findBackendVersion (MembershipApp : MembershipApplication) (net : Network) : MembershipApplication :=
  let called := callBackend MembershipApp net "version"
  let version := if called.2 ≠ none then "unknown" else called.1
  { MembershipApp with BackendVersion := version }

/-- The method `handleFormSubmission`. -/
def handleFormSubmission (MembershipApp : MembershipApplication) (net : Network) (r : Request) : MembershipApplication :=
  let amount := parseMembershipAmount r
  let stored := { MembershipApp with MembershipAmount := amount }
  if amount = 0 then stored
  else
    let called := callBackend stored net "api/v1/interest"
    let quote :=
      if called.2 ≠ none then "Could not get interest. Sorry!"
      else
        let interestConverted := (strconv.Atoi called.1).1
        offerQuote amount interestConverted
    { stored with MembershipResult := quote }

/-- The state changes of the method `home`: the backend version lookup, then
the form submission. Rendering the template afterwards only reads the
application. -/
def home (MembershipApp : MembershipApplication) (net : Network) (r : Request) : MembershipApplication :=
  handleFormSubmission (findBackendVersion MembershipApp net) net r

end membership

/-! ## The orders frontend -/

namespace orders

/-- The type `OrderApplication` of `src/orders/main.go`. -/
structure OrderApplication where
  AppVersion : String
  BackendVersion : String
  BackendHost : String
  BackendPort : String
  OrderAmount : Int
  OrderResult : String
  deriving DecidableEq

/-- The function `parseOrderAmount`: zero when `ParseForm` fails or when `Atoi`
reports an error on the value of the form field `"order"`. -/
def parseOrderAmount (r : Request) : Int :=
  if r.parseFormFails then 0
  else
    let postParameter := r.Form.Get "order"
    let converted := strconv.Atoi postParameter
    if converted.2 ≠ none then 0 else converted.1

/-- The function `offerQuote` of `src/orders/main.go`. -/
def offerQuote (order : Int) (interest : Int) : String :=
  if order ≤ 0 then ""
  else
    let total := Int.tdiv (wrapInt (order * interest)) 100
    fmt.Sprintf "With rate %d%% you will pay  %d extra interest" [interest, total]

/-- The method `callBackend`: the body and the error (`none` is `nil`). The
URL it fetches has host `BackendHost + ":" + BackendPort` and the given path. -/
def callBackend (orderApp : OrderApplication) (net : Network) (path : String) :
    String × Option BackendError :=
  match net (orderApp.BackendHost ++ ":" ++ orderApp.BackendPort) path with
  | .transportError => ("", some .couldNotAccess)
  | .response statusCode body =>
    if statusCode ≠ StatusOK then ("", some .couldNotAccess)
    else
      match body with
      | none => ("", some .readFailed)
      | some text => (text, none)

/-- The method `findBackendVersion`. -/
def findBackendVersion (orderApp : OrderApplication) (net : Network) : OrderApplication :=
  let called := callBackend orderApp net "version"
  let version := if called.2 ≠ none then "unknown" else called.1
  { orderApp with BackendVersion := version }

/-- The method `handleFormSubmission`. -/
def handleFormSubmission (orderApp : OrderApplication) (net : Network) (r : Request) : OrderApplication :=
  let amount := parseOrderAmount r
  let stored := { orderApp with OrderAmount := amount }
  if amount = 0 then stored
  else
    let called := callBackend stored net "api/v1/interest"
    let quote :=
      if called.2 ≠ none then "Could not get interest. Sorry!"
      else
        let interestConverted := (strconv.Atoi called.1).1
        offerQuote amount interestConverted
    { stored with OrderResult := quote }

/-- The state changes of the method `home`: the backend version lookup, then
the form submission. Rendering the template afterwards only reads the
application. -/
def home (orderApp : OrderApplication) (net : Network) (r : Request) : OrderApplication :=
  handleFormSubmission (findBackendVersion orderApp net) net r

end orders


/-! ## The reading of a text as a base-10 integer, in the words of the specification -/

/-- Whether a byte is one of the decimal digits `0` to `9`. -/
def isDecimalDigit (c : Char) : Bool := decide (48 ≤ c.toNat ∧ c.toNat ≤ 57)

/-- One step of reading a decimal numeral from the left. -/
def digitStep (n : Nat) (c : Char) : Nat := n * 10 + (c.toNat - 48)

/-- The number a run of decimal digits denotes. -/
def digitsValue (ds : List Char) : Nat := ds.foldl digitStep 0

/-- The integer a signed run of digits denotes, whatever its size; `none` when
the run is empty or holds a byte that is not a decimal digit. -/
def signedDigits (neg : Bool) (ds : List Char) : Option Int :=
  if ds ≠ [] ∧ ds.all isDecimalDigit = true then
    some (if neg = true then -(digitsValue ds : Int) else (digitsValue ds : Int))
  else none

/-- A text parses as a base-10 integer when it is an optional sign followed by
one or more decimal digits; its value is the integer the numeral denotes,
whatever its size. Any other text, the empty one included, does not parse. -/
def decimalInteger (text : String) : Option Int :=
  match text.toList with
  | [] => none
  | c0 :: t =>
    if c0 = '-' then signedDigits true t
    else if c0 = '+' then signedDigits false t
    else signedDigits false (c0 :: t)

/-- The value kept of a reading: the integer itself when there is one and it
lies in the range of `int`, and 0 otherwise. -/
def inRangeOrZero (reading : Option Int) : Int :=
  match reading with
  | some v => if minInt ≤ v ∧ v ≤ maxInt then v else 0
  | none => 0

/-- Parse-or-zero in the words of the specification: the parsed integer when
the text parses as a base-10 integer inside the range of `int`, and 0 when it
is non-numeric, empty or out of range. -/
def parseOrZero (text : String) : Int := inRangeOrZero (decimalInteger text)

/-! ## Formatting lemmas -/

/-- The verb `%d` prints the decimal numeral of its operand. -/
theorem fmt.fmtInteger_eq_toString (v : Int) : fmt.fmtInteger v = (toString v).toList := by
  cases v with
  | ofNat m =>
    have h : ¬ ((m : Int) < 0) := by omega
    simp [fmt.fmtInteger, h, toString, instToStringInt, Int.repr, Nat.repr, List.asString]
  | negSucc m =>
    have h : Int.negSucc m < 0 := Int.negSucc_lt_zero m
    simp [fmt.fmtInteger, h, toString, instToStringInt, Int.repr, Nat.repr, List.asString,
      Int.natAbs]

/-- The format of `offerQuote` applied to two operands. -/
theorem fmt.Sprintf_quote (a b : Int) :
    fmt.Sprintf "With rate %d%% you will pay  %d extra interest" [a, b]
      = "With rate " ++ toString a ++ "% you will pay  " ++ toString b ++ " extra interest" := by
  have h : fmt.doPrintf "With rate %d%% you will pay  %d extra interest".toList [a, b]
      = "With rate ".toList ++ (fmt.fmtInteger a ++ ("% you will pay  ".toList
          ++ (fmt.fmtInteger b ++ " extra interest".toList))) := rfl
  unfold fmt.Sprintf
  rw [h, fmt.fmtInteger_eq_toString, fmt.fmtInteger_eq_toString]
  apply String.ext
  simp [String.append]

/-- Inside the range of `int` the two's complement reduction changes nothing. -/
theorem wrapInt_of_inRange (x : Int) (hlo : minInt ≤ x) (hhi : x ≤ maxInt) : wrapInt x = x := by
  unfold wrapInt
  unfold minInt at hlo
  unfold maxInt at hhi
  omega

/-- Truncated division of a value that is not positive is not positive. -/
theorem tdiv_hundred_nonpos (x : Int) (hx : x ≤ 0) : Int.tdiv x 100 ≤ 0 := by
  have h : Int.tdiv x 100 = -(Int.tdiv (-x) 100) := by
    rw [Int.neg_tdiv, neg_neg]
  have h2 : 0 ≤ Int.tdiv (-x) 100 := Int.tdiv_nonneg (by omega) (by decide)
  omega

/-- A text that starts with the words of the quote sentence is not empty. -/
theorem quote_sentence_ne_empty (a b : String) :
    "With rate " ++ a ++ "% you will pay  " ++ b ++ " extra interest" ≠ "" := by
  intro h
  have h2 := congrArg String.length h
  simp only [String.length_append] at h2
  have h3 : "With rate ".length = 10 := by decide
  have h4 : "".length = 0 := by decide
  omega

/-! ## Quote computation -/

/-- C1, as amended: for every amount above zero and every rate, `offerQuote`
of both variants returns the sentence "With rate RATE% you will pay  TOTAL
extra interest", with two spaces before TOTAL and both numbers in decimal,
where TOTAL is the 64-bit product of amount and rate divided by 100 with the
quotient truncated toward zero; when the rate is not negative and the product
does not exceed the largest `int`, TOTAL is the floor of amount*rate/100. -/
theorem offerQuote_sentence (amount rate : Int) (h : 0 < amount) :
    membership.offerQuote amount rate
        = "With rate " ++ toString rate ++ "% you will pay  "
            ++ toString (Int.tdiv (wrapInt (amount * rate)) 100) ++ " extra interest"
      ∧ orders.offerQuote amount rate
        = "With rate " ++ toString rate ++ "% you will pay  "
            ++ toString (Int.tdiv (wrapInt (amount * rate)) 100) ++ " extra interest"
      ∧ (0 ≤ rate → amount * rate ≤ maxInt →
          Int.tdiv (wrapInt (amount * rate)) 100 = ⌊((amount * rate : Int) : ℚ) / 100⌋) := by
  have hna : ¬ amount ≤ 0 := by omega
  refine ⟨?_, ?_, ?_⟩
  · simp only [membership.offerQuote, hna, if_false, fmt.Sprintf_quote]
  · simp only [orders.offerQuote, hna, if_false, fmt.Sprintf_quote]
  · intro hr hhi
    have hp : 0 ≤ amount * rate := Int.mul_nonneg (by omega) hr
    have hlo : minInt ≤ amount * rate := by
      unfold minInt
      omega
    rw [wrapInt_of_inRange _ hlo hhi, Int.tdiv_eq_ediv hp (by decide)]
    have hf := Rat.floor_intCast_div_natCast (amount * rate) 100
    simpa using hf.symm

/-- Witness of `offerQuote_sentence`: the scenario of the specification,
amount 1000 and rate 5, where the total 50 is also the floor of 5000/100. -/
theorem offerQuote_sentence_witness :
    membership.offerQuote 1000 5 = "With rate 5% you will pay  50 extra interest"
      ∧ orders.offerQuote 1000 5 = "With rate 5% you will pay  50 extra interest"
      ∧ Int.tdiv (wrapInt (1000 * 5)) 100 = ⌊(((1000 : Int) * 5 : Int) : ℚ) / 100⌋ :=
  ⟨(offerQuote_sentence 1000 5 (by decide)).1,
    (offerQuote_sentence 1000 5 (by decide)).2.1,
    (offerQuote_sentence 1000 5 (by decide)).2.2 (by decide) (by decide)⟩

/-- C1 fails as stated. With amount 1 and rate -1 the code prints the total 0,
the truncated quotient, while the floor of -1/100 is -1. With amount 2^62 and
rate 4 the product wraps to 0 in 64 bits and the code prints the total 0,
while the floor of 2^64/100 is 184467440737095516. -/
theorem offerQuote_floor_counterexample :
    membership.offerQuote 1 (-1) = "With rate -1% you will pay  0 extra interest"
      ∧ orders.offerQuote 1 (-1) = "With rate -1% you will pay  0 extra interest"
      ∧ ⌊(((1 : Int) * (-1) : Int) : ℚ) / 100⌋ = -1
      ∧ membership.offerQuote 4611686018427387904 4
          = "With rate 4% you will pay  0 extra interest"
      ∧ ⌊(((4611686018427387904 : Int) * 4 : Int) : ℚ) / 100⌋ = 184467440737095516 := by
  refine ⟨by decide, by decide, ?_, by decide, ?_⟩
  · rw [Int.floor_eq_iff]
    norm_num
  · rw [Int.floor_eq_iff]
    norm_num

/-- C2: for every amount that is zero or negative and every rate, `offerQuote`
of both variants returns the empty text. -/
theorem offerQuote_nonpositive_amount (amount rate : Int) (h : amount ≤ 0) :
    membership.offerQuote amount rate = "" ∧ orders.offerQuote amount rate = "" := by
  constructor
  · simp [membership.offerQuote, h]
  · simp [orders.offerQuote, h]

/-- Witness of `offerQuote_nonpositive_amount`: the scenario with amount 0 and rate 5. -/
theorem offerQuote_nonpositive_amount_witness :
    (0 : Int) ≤ 0 ∧ membership.offerQuote 0 5 = "" ∧ orders.offerQuote 0 5 = "" :=
  ⟨by decide, offerQuote_nonpositive_amount 0 5 (by decide)⟩

/-- C9, as amended: for every amount above zero and every negative rate,
`offerQuote` of both variants returns the quote sentence, which is never
the empty text, and the total it prints is zero or negative whenever the
product of amount and rate is not below the smallest `int`. -/
theorem offerQuote_negative_rate (amount rate : Int) (h : 0 < amount) (hr : rate < 0) :
    membership.offerQuote amount rate
        = "With rate " ++ toString rate ++ "% you will pay  "
            ++ toString (Int.tdiv (wrapInt (amount * rate)) 100) ++ " extra interest"
      ∧ orders.offerQuote amount rate = membership.offerQuote amount rate
      ∧ membership.offerQuote amount rate ≠ ""
      ∧ (minInt ≤ amount * rate → Int.tdiv (wrapInt (amount * rate)) 100 ≤ 0) := by
  have hna : ¬ amount ≤ 0 := by omega
  have hm : membership.offerQuote amount rate
        = "With rate " ++ toString rate ++ "% you will pay  "
            ++ toString (Int.tdiv (wrapInt (amount * rate)) 100) ++ " extra interest" := by
    simp only [membership.offerQuote, hna, if_false, fmt.Sprintf_quote]
  refine ⟨hm, rfl, ?_, ?_⟩
  · rw [hm]
    exact quote_sentence_ne_empty _ _
  · intro hlo
    have hp : amount * rate ≤ 0 := Int.mul_nonpos_of_nonneg_of_nonpos (by omega) (by omega)
    have hhi : amount * rate ≤ maxInt := by
      unfold maxInt
      omega
    rw [wrapInt_of_inRange _ hlo hhi]
    exact tdiv_hundred_nonpos _ hp

/-- Witness of `offerQuote_negative_rate`: amount 1000 and rate -5 give the
total -50. -/
theorem offerQuote_negative_rate_witness :
    membership.offerQuote 1000 (-5) = "With rate -5% you will pay  -50 extra interest"
      ∧ orders.offerQuote 1000 (-5) = membership.offerQuote 1000 (-5)
      ∧ membership.offerQuote 1000 (-5) ≠ ""
      ∧ Int.tdiv (wrapInt (1000 * (-5))) 100 ≤ 0 :=
  ⟨(offerQuote_negative_rate 1000 (-5) (by decide) (by decide)).1,
    (offerQuote_negative_rate 1000 (-5) (by decide) (by decide)).2.1,
    (offerQuote_negative_rate 1000 (-5) (by decide) (by decide)).2.2.1,
    (offerQuote_negative_rate 1000 (-5) (by decide) (by decide)).2.2.2 (by decide)⟩

/-- C9 fails as stated. With amount 2^62 and rate -3, both values of the type
`int`, the product wraps to 2^62 in 64 bits and the total that is printed,
46116860184273879, is positive. -/
theorem offerQuote_negative_rate_counterexample :
    (0 : Int) < 4611686018427387904 ∧ (4611686018427387904 : Int) ≤ maxInt
      ∧ minInt ≤ (-3 : Int) ∧ (-3 : Int) < 0
      ∧ (0 : Int) < 46116860184273879
      ∧ membership.offerQuote 4611686018427387904 (-3)
          = "With rate -3% you will pay  46116860184273879 extra interest"
      ∧ orders.offerQuote 4611686018427387904 (-3)
          = "With rate -3% you will pay  46116860184273879 extra interest" := by
  refine ⟨by decide, by decide, by decide, by decide, by decide, by decide, by decide⟩

/-! ## Correctness of the integer conversion -/

/-- The byte test of the fast path rejects exactly the bytes that are not digits. -/
theorem strconv.subZero_of_digit (c : Char) (h : isDecimalDigit c = true) :
    strconv.subZero c = c.toNat - 48 ∧ ¬ strconv.subZero c > 9 := by
  simp only [isDecimalDigit, decide_eq_true_eq] at h
  unfold strconv.subZero
  have h1 : ¬ c.toNat < 48 := by omega
  rw [if_neg h1]
  omega

/-- The byte test of the fast path rejects every byte that is not a digit. -/
theorem strconv.subZero_of_not_digit (c : Char) (h : ¬ isDecimalDigit c = true) :
    strconv.subZero c > 9 := by
  simp only [isDecimalDigit, decide_eq_true_eq] at h
  unfold strconv.subZero
  split <;> omega

/-- The fast loop of `Atoi` computes the value of a run of digits and fails on
any other text. -/
theorem strconv.atoiFastLoop_eq (cs : List Char) : ∀ m : Nat,
    strconv.atoiFastLoop cs (m : Int)
      = if cs.all isDecimalDigit = true then some ((cs.foldl digitStep m : Nat) : Int) else none := by
  induction cs with
  | nil => intro m; simp [strconv.atoiFastLoop]
  | cons c cs ih =>
    intro m
    by_cases hc : isDecimalDigit c = true
    · obtain ⟨h1, h2⟩ := strconv.subZero_of_digit c hc
      have h3 : (m : Int) * 10 + ((strconv.subZero c : Nat) : Int) = ((digitStep m c : Nat) : Int) := by
        rw [h1]
        unfold digitStep
        push_cast
        rfl
      simp only [strconv.atoiFastLoop, h2, if_false, h3, ih, List.all_cons, hc, Bool.true_and,
        List.foldl_cons]
    · have h2 := strconv.subZero_of_not_digit c hc
      simp [strconv.atoiFastLoop, h2, hc]

/-- Reading further digits never lowers the value read so far. -/
theorem digitStep_foldl_ge (cs : List Char) : ∀ a : Nat, a ≤ cs.foldl digitStep a := by
  induction cs with
  | nil => intro a; simp
  | cons c cs ih =>
    intro a
    have h := ih (digitStep a c)
    simp only [List.foldl_cons]
    unfold digitStep at h ⊢
    omega

/-- A run of `k` digits read after the value `a` stays below `(a + 1) * 10^k`. -/
theorem digitStep_foldl_lt (cs : List Char) : ∀ a : Nat, cs.all isDecimalDigit = true →
    cs.foldl digitStep a + 1 ≤ (a + 1) * 10 ^ cs.length := by
  induction cs with
  | nil => intro a _; simp
  | cons c cs ih =>
    intro a hall
    simp only [List.all_cons, Bool.and_eq_true] at hall
    obtain ⟨hc, hcs⟩ := hall
    simp only [isDecimalDigit, decide_eq_true_eq] at hc
    have h := ih (digitStep a c) hcs
    have h2 : digitStep a c + 1 ≤ (a + 1) * 10 := by
      unfold digitStep
      omega
    have h3 : (digitStep a c + 1) * 10 ^ cs.length ≤ ((a + 1) * 10) * 10 ^ cs.length :=
      Nat.mul_le_mul_right _ h2
    simp only [List.foldl_cons, List.length_cons, pow_succ]
    calc List.foldl digitStep (digitStep a c) cs + 1
        ≤ (digitStep a c + 1) * 10 ^ cs.length := h
      _ ≤ ((a + 1) * 10) * 10 ^ cs.length := h3
      _ = (a + 1) * (10 ^ cs.length * 10) := by ring

/-- One turn of the loop of `ParseUint` on a digit. -/
theorem strconv.parseUintLoop_cons_digit (c : Char) (cs : List Char) (m : Nat)
    (hc : isDecimalDigit c = true) :
    strconv.parseUintLoop (c :: cs) m
      = if m * 10 + (c.toNat - 48) ≤ strconv.maxUint64
        then strconv.parseUintLoop cs (digitStep m c)
        else (strconv.maxUint64, some .ErrRange) := by
  simp only [isDecimalDigit, decide_eq_true_eq] at hc
  have hd : ¬ (c.toNat - 48 ≥ 10) := by omega
  simp only [strconv.parseUintLoop, hc, and_self, if_true, hd, if_false, strconv.maxUint64,
    digitStep]
  by_cases h1 : m ≥ (2 ^ 64 - 1) / 10 + 1
  · have h2 : ¬ (m * 10 + (c.toNat - 48) ≤ 2 ^ 64 - 1) := by omega
    rw [if_pos h1, if_neg h2]
  · rw [if_neg h1]
    have h3 : m * 10 % 2 ^ 64 = m * 10 := Nat.mod_eq_of_lt (by omega)
    rw [h3]
    by_cases h2 : m * 10 + (c.toNat - 48) ≤ 2 ^ 64 - 1
    · have h4 : (m * 10 + (c.toNat - 48)) % 2 ^ 64 = m * 10 + (c.toNat - 48) :=
        Nat.mod_eq_of_lt (by omega)
      rw [h4, if_pos h2]
      have h5 : ¬ (m * 10 + (c.toNat - 48) < m * 10 ∨ m * 10 + (c.toNat - 48) > 2 ^ 64 - 1) := by
        omega
      rw [if_neg h5]
    · rw [if_neg h2]
      have h5 : (m * 10 + (c.toNat - 48)) % 2 ^ 64 < m * 10
          ∨ (m * 10 + (c.toNat - 48)) % 2 ^ 64 > 2 ^ 64 - 1 := by
        left
        omega
      rw [if_pos h5]

/-- One turn of the loop of `ParseUint` on a byte that is not a digit. -/
theorem strconv.parseUintLoop_cons_not_digit (c : Char) (cs : List Char) (m : Nat)
    (hc : ¬ isDecimalDigit c = true) :
    strconv.parseUintLoop (c :: cs) m = (0, some .ErrSyntax) := by
  simp only [isDecimalDigit, decide_eq_true_eq] at hc
  have hd : strconv.lower c.toNat - 97 + 10 ≥ 10 := by omega
  simp only [strconv.parseUintLoop, hc, if_false, hd, if_true, ite_self]

/-- On a run of digits the loop of `ParseUint` returns their value when it fits
`uint64` and the range error with the largest `uint64` otherwise. -/
theorem strconv.parseUintLoop_digits (cs : List Char) : ∀ m : Nat,
    m ≤ strconv.maxUint64 → cs.all isDecimalDigit = true →
    strconv.parseUintLoop cs m
      = if cs.foldl digitStep m ≤ strconv.maxUint64 then (cs.foldl digitStep m, none)
        else (strconv.maxUint64, some .ErrRange) := by
  induction cs with
  | nil =>
    intro m hm _
    simp [strconv.parseUintLoop, hm]
  | cons c cs ih =>
    intro m _ hall
    simp only [List.all_cons, Bool.and_eq_true] at hall
    obtain ⟨hc, hcs⟩ := hall
    rw [strconv.parseUintLoop_cons_digit c cs m hc, List.foldl_cons]
    have hge := digitStep_foldl_ge cs (digitStep m c)
    by_cases h1 : m * 10 + (c.toNat - 48) ≤ strconv.maxUint64
    · rw [if_pos h1]
      exact ih (digitStep m c) h1 hcs
    · rw [if_neg h1]
      have h2 : ¬ (cs.foldl digitStep (digitStep m c) ≤ strconv.maxUint64) := by
        unfold digitStep at hge ⊢
        omega
      rw [if_neg h2]

/-- On a text with a byte that is not a digit the loop of `ParseUint` returns
an error: the syntax error with the value 0, or, when the digits before that
byte already overflow, the range error with the largest `uint64`. -/
theorem strconv.parseUintLoop_not_digits (cs : List Char) : ∀ m : Nat,
    ¬ cs.all isDecimalDigit = true →
    strconv.parseUintLoop cs m = (0, some .ErrSyntax)
      ∨ strconv.parseUintLoop cs m = (strconv.maxUint64, some .ErrRange) := by
  induction cs with
  | nil => intro m h; simp at h
  | cons c cs ih =>
    intro m hall
    by_cases hc : isDecimalDigit c = true
    · have hcs : ¬ cs.all isDecimalDigit = true := by
        intro h
        apply hall
        simp only [List.all_cons, Bool.and_eq_true]
        exact ⟨hc, h⟩
      rw [strconv.parseUintLoop_cons_digit c cs m hc]
      by_cases h1 : m * 10 + (c.toNat - 48) ≤ strconv.maxUint64
      · rw [if_pos h1]
        exact ih _ hcs
      · rw [if_neg h1]
        exact Or.inr rfl
    · exact Or.inl (strconv.parseUintLoop_cons_not_digit c cs m hc)

/-- The three outcomes of `ParseUint(s, 10, 0)`: the value of a non-empty run
of digits that fits `uint64`; the range error with the largest `uint64` for a
run of digits that does not fit; and an error for every other text. -/
theorem strconv.ParseUint_cases (s : List Char) :
    (s ≠ [] ∧ s.all isDecimalDigit = true ∧ digitsValue s ≤ strconv.maxUint64
        ∧ strconv.ParseUint s = (digitsValue s, none))
      ∨ (s ≠ [] ∧ s.all isDecimalDigit = true ∧ strconv.maxUint64 < digitsValue s
        ∧ strconv.ParseUint s = (strconv.maxUint64, some .ErrRange))
      ∨ (¬ (s ≠ [] ∧ s.all isDecimalDigit = true)
        ∧ (strconv.ParseUint s = (0, some .ErrSyntax)
          ∨ strconv.ParseUint s = (strconv.maxUint64, some .ErrRange))) := by
  by_cases hs : s = []
  · right; right
    subst hs
    exact ⟨by simp, Or.inl rfl⟩
  · have hP : strconv.ParseUint s = strconv.parseUintLoop s 0 := by
      unfold strconv.ParseUint
      rw [if_neg hs]
    by_cases hall : s.all isDecimalDigit = true
    · have h := strconv.parseUintLoop_digits s 0 (Nat.zero_le _) hall
      by_cases hv : digitsValue s ≤ strconv.maxUint64
      · left
        refine ⟨hs, hall, hv, ?_⟩
        rw [hP, h]
        unfold digitsValue at hv ⊢
        rw [if_pos hv]
      · right; left
        refine ⟨hs, hall, by omega, ?_⟩
        rw [hP, h]
        unfold digitsValue at hv
        rw [if_neg hv]
    · right; right
      refine ⟨fun h => hall h.2, ?_⟩
      rw [hP]
      exact strconv.parseUintLoop_not_digits s 0 hall

/-- The value and error of `ParseInt(s, 10, 0)` after the sign was read. -/
theorem strconv.ParseInt_signed (neg : Bool) (rest : List Char) (out : Int × Option strconv.NumError)
    (hout : out =
      (if (strconv.ParseUint rest).2 = some .ErrSyntax then (0, (strconv.ParseUint rest).2)
      else
        if neg = false ∧ (strconv.ParseUint rest).1 ≥ 2 ^ (intSize - 1) then
          (((2 ^ (intSize - 1) : Nat) : Int) - 1, some .ErrRange)
        else if neg = true ∧ (strconv.ParseUint rest).1 > 2 ^ (intSize - 1) then
          (-((2 ^ (intSize - 1) : Nat) : Int), some .ErrRange)
        else
          (if neg = true then wrapInt (-(wrapInt ((strconv.ParseUint rest).1 : Int)))
            else wrapInt ((strconv.ParseUint rest).1 : Int), none))) :
    (if out.2 ≠ none then 0 else out.1) = inRangeOrZero (signedDigits neg rest) := by
  unfold inRangeOrZero signedDigits
  subst hout
  rcases strconv.ParseUint_cases rest with ⟨hne, hall, hv, he⟩ | ⟨hne, hall, hv, he⟩ | ⟨hn, he | he⟩
  · rw [he]
    have hc : rest ≠ [] ∧ rest.all isDecimalDigit = true := ⟨hne, hall⟩
    rw [if_pos hc]
    simp only [intSize, strconv.maxUint64, minInt, maxInt, wrapInt] at hv ⊢
    cases neg <;> simp <;> split_ifs <;> first | contradiction | omega
  · rw [he]
    have hc : rest ≠ [] ∧ rest.all isDecimalDigit = true := ⟨hne, hall⟩
    rw [if_pos hc]
    simp only [intSize, strconv.maxUint64, minInt, maxInt, wrapInt] at hv ⊢
    cases neg <;> simp <;> omega
  · rw [he, if_neg hn]
    simp
  · rw [he, if_neg hn]
    simp only [intSize, strconv.maxUint64, minInt, maxInt, wrapInt]
    cases neg <;> simp

/-- Parse-or-zero of a non-empty text, by its first byte. -/
theorem parseOrZero_cons (c0 : Char) (t : List Char) :
    parseOrZero (String.mk (c0 :: t))
      = inRangeOrZero (signedDigits (decide (c0 ≠ '+' ∧ c0 = '-'))
          (if c0 = '+' then t else if c0 = '-' then t else c0 :: t)) := by
  unfold parseOrZero decimalInteger
  simp only [String.toList]
  by_cases hm : c0 = '-'
  · subst hm
    simp
  · by_cases hp : c0 = '+'
    · subst hp
      simp
    · simp [hm, hp]

/-- The slow path of `Atoi` keeps exactly what parse-or-zero keeps. -/
theorem strconv.ParseInt_orZero (l : List Char) :
    (if (strconv.ParseInt l).2 ≠ none then 0 else (strconv.ParseInt l).1)
      = parseOrZero (String.mk l) := by
  cases l with
  | nil => simp [strconv.ParseInt, parseOrZero, decimalInteger, inRangeOrZero]
  | cons c0 t =>
    rw [parseOrZero_cons]
    exact strconv.ParseInt_signed _ _ _ rfl

/-- A run of at most 18 digits denotes a value inside the range of `int`. -/
theorem digitsValue_short (ds : List Char) (hall : ds.all isDecimalDigit = true)
    (hlen : ds.length < 19) : (digitsValue ds : Int) ≤ maxInt ∧ minInt ≤ -(digitsValue ds : Int) := by
  have h := digitStep_foldl_lt ds 0 hall
  have h2 : 10 ^ ds.length ≤ 10 ^ 18 := Nat.pow_le_pow_right (by decide) (by omega)
  unfold digitsValue maxInt minInt
  omega

/-- The fast path of `Atoi` after the sign was read keeps exactly what
parse-or-zero keeps. -/
theorem strconv.atoiFast_signed (neg : Bool) (body : List Char) (hlen : body.length < 19)
    (hne : body ≠ []) :
    (match strconv.atoiFastLoop body 0 with
      | none => (0 : Int)
      | some n => if neg = true then -n else n)
      = inRangeOrZero (signedDigits neg body) := by
  have h := strconv.atoiFastLoop_eq body 0
  simp only [Nat.cast_zero] at h
  rw [h]
  unfold inRangeOrZero signedDigits
  by_cases hall : body.all isDecimalDigit = true
  · obtain ⟨h1, h2⟩ := digitsValue_short body hall hlen
    have hc : body ≠ [] ∧ body.all isDecimalDigit = true := ⟨hne, hall⟩
    rw [if_pos hall, if_pos hc]
    unfold minInt at *
    unfold maxInt at *
    unfold digitsValue at *
    generalize List.foldl digitStep 0 body = v at *
    cases neg <;> simp
    · omega
    · split_ifs
      · rfl
      · rename_i hcond
        exfalso
        apply hcond
        constructor
        · omega
        · omega
  · have hc : ¬ (body ≠ [] ∧ body.all isDecimalDigit = true) := fun h => hall h.2
    rw [if_neg hall, if_neg hc]

/-- The conversion `strconv.Atoi` followed by "zero on error" is parse-or-zero:
the error is `nil` exactly for the texts that parse as a base-10 integer
inside the range of `int`, and the value is then the parsed integer. -/
theorem strconv.Atoi_orZero (s : String) :
    (if (strconv.Atoi s).2 ≠ none then 0 else (strconv.Atoi s).1) = parseOrZero s := by
  obtain ⟨l⟩ := s
  by_cases hfast : 0 < l.length ∧ l.length < 19
  · cases l with
    | nil => simp at hfast
    | cons c0 t =>
      rw [parseOrZero_cons]
      unfold strconv.Atoi
      simp only [String.toList]
      rw [if_pos (Or.inr ⟨rfl, hfast⟩)]
      simp only [List.length_cons] at hfast
      by_cases hm : c0 = '-'
      · subst hm
        by_cases ht : t = []
        · subst ht
          simp [inRangeOrZero, signedDigits]
        · have hl : ¬ t.length < 1 := by
            cases t with
            | nil => exact absurd rfl ht
            | cons _ _ => simp
          have := strconv.atoiFast_signed true t (by omega) ht
          simp [hl] at this ⊢
          rw [← this]
          cases strconv.atoiFastLoop t 0 <;> simp
      · by_cases hp : c0 = '+'
        · subst hp
          by_cases ht : t = []
          · subst ht
            simp [inRangeOrZero, signedDigits]
          · have hl : ¬ t.length < 1 := by
              cases t with
              | nil => exact absurd rfl ht
              | cons _ _ => simp
            have := strconv.atoiFast_signed false t (by omega) ht
            simp [hl] at this ⊢
            rw [← this]
            cases strconv.atoiFastLoop t 0 <;> simp
        · have := strconv.atoiFast_signed false (c0 :: t) (by simp; omega) (by simp)
          simp [hm, hp] at this ⊢
          rw [← this]
          cases strconv.atoiFastLoop (c0 :: t) 0 <;> simp
  · have h : ¬ ((intSize = 32 ∧ 0 < l.length ∧ l.length < 10)
        ∨ (intSize = 64 ∧ 0 < l.length ∧ l.length < 19)) := by
      unfold intSize
      omega
    have hA : strconv.Atoi (String.mk l) = strconv.ParseInt l := by
      unfold strconv.Atoi
      simp only [String.toList]
      rw [if_neg h]
    rw [hA]
    exact strconv.ParseInt_orZero l

/-! ## Backend calls -/

/-- A failed GET makes `callBackend` of the membership frontend return an error. -/
theorem membership_callBackend_of_failure (app : membership.MembershipApplication) (net : Network)
    (path : String)
    (h : (net (app.BackendHost ++ ":" ++ app.BackendPort) path).isFailure = true) :
    (membership.callBackend app net path).2 ≠ none := by
  unfold membership.callBackend
  cases ho : net (app.BackendHost ++ ":" ++ app.BackendPort) path with
  | transportError => simp
  | response statusCode body =>
    rw [ho] at h
    by_cases hs : statusCode ≠ StatusOK
    · simp [hs]
    · cases body with
      | none => simp [hs]
      | some text => simp [HttpOutcome.isFailure, hs] at h

/-- A GET answered with status 200 and a readable body makes `callBackend` of
the membership frontend return that body and no error. -/
theorem membership_callBackend_of_success (app : membership.MembershipApplication) (net : Network)
    (path : String) (text : String)
    (h : net (app.BackendHost ++ ":" ++ app.BackendPort) path = .response StatusOK (some text)) :
    membership.callBackend app net path = (text, none) := by
  unfold membership.callBackend
  rw [h]
  simp

/-- A failed GET makes `callBackend` of the orders frontend return an error. -/
theorem orders_callBackend_of_failure (app : orders.OrderApplication) (net : Network)
    (path : String)
    (h : (net (app.BackendHost ++ ":" ++ app.BackendPort) path).isFailure = true) :
    (orders.callBackend app net path).2 ≠ none := by
  unfold orders.callBackend
  cases ho : net (app.BackendHost ++ ":" ++ app.BackendPort) path with
  | transportError => simp
  | response statusCode body =>
    rw [ho] at h
    by_cases hs : statusCode ≠ StatusOK
    · simp [hs]
    · cases body with
      | none => simp [hs]
      | some text => simp [HttpOutcome.isFailure, hs] at h

/-- A GET answered with status 200 and a readable body makes `callBackend` of
the orders frontend return that body and no error. -/
theorem orders_callBackend_of_success (app : orders.OrderApplication) (net : Network)
    (path : String) (text : String)
    (h : net (app.BackendHost ++ ":" ++ app.BackendPort) path = .response StatusOK (some text)) :
    orders.callBackend app net path = (text, none) := by
  unfold orders.callBackend
  rw [h]
  simp

/-- C10: `findBackendVersion` of both variants sets `BackendVersion` to
"unknown" when the GET of the path "version" fails (transport error, status
other than 200, unreadable body) and to the body when it succeeds, and leaves
every other field of the application as it was. -/
theorem findBackendVersion_sets_version (mApp : membership.MembershipApplication)
    (oApp : orders.OrderApplication) (net : Network) :
    ((net (mApp.BackendHost ++ ":" ++ mApp.BackendPort) "version").isFailure = true →
        membership.findBackendVersion mApp net = { mApp with BackendVersion := "unknown" })
      ∧ (∀ text, net (mApp.BackendHost ++ ":" ++ mApp.BackendPort) "version"
            = .response StatusOK (some text) →
          membership.findBackendVersion mApp net = { mApp with BackendVersion := text })
      ∧ ((net (oApp.BackendHost ++ ":" ++ oApp.BackendPort) "version").isFailure = true →
        orders.findBackendVersion oApp net = { oApp with BackendVersion := "unknown" })
      ∧ (∀ text, net (oApp.BackendHost ++ ":" ++ oApp.BackendPort) "version"
            = .response StatusOK (some text) →
          orders.findBackendVersion oApp net = { oApp with BackendVersion := text }) := by
  refine ⟨?_, ?_, ?_, ?_⟩
  · intro h
    have he := membership_callBackend_of_failure mApp net "version" h
    simp only [membership.findBackendVersion]
    rw [if_pos he]
  · intro text h
    have he := membership_callBackend_of_success mApp net "version" text h
    simp [membership.findBackendVersion, he]
  · intro h
    have he := orders_callBackend_of_failure oApp net "version" h
    simp only [orders.findBackendVersion]
    rw [if_pos he]
  · intro text h
    have he := orders_callBackend_of_success oApp net "version" text h
    simp [orders.findBackendVersion, he]

/-- Witness of `findBackendVersion_sets_version`: a backend that answers 503
and a backend that answers 200 with the body "1.0". -/
theorem findBackendVersion_sets_version_witness :
    membership.findBackendVersion ⟨"dev", "", "interest", "8080", 0, ""⟩
        (fun _ _ => .response 503 (some "down"))
        = ⟨"dev", "unknown", "interest", "8080", 0, ""⟩
      ∧ orders.findBackendVersion ⟨"dev", "", "interest", "8080", 0, ""⟩
        (fun _ _ => .response 200 (some "1.0"))
        = ⟨"dev", "1.0", "interest", "8080", 0, ""⟩ :=
  ⟨(findBackendVersion_sets_version ⟨"dev", "", "interest", "8080", 0, ""⟩
      ⟨"dev", "", "interest", "8080", 0, ""⟩ (fun _ _ => .response 503 (some "down"))).1
      (by decide),
    (findBackendVersion_sets_version ⟨"dev", "", "interest", "8080", 0, ""⟩
      ⟨"dev", "", "interest", "8080", 0, ""⟩ (fun _ _ => .response 200 (some "1.0"))).2.2.2
      "1.0" (by decide)⟩

/-! ## Form submissions -/

/-- C4: for every form submission whose amount parses to a value other than
zero, when the GET of the interest path fails (transport error, status other
than 200, unreadable body), `handleFormSubmission` of both variants returns
normally with the result field set to exactly "Could not get interest. Sorry!",
the amount field set to the parsed amount and every other field unchanged. -/
theorem handleFormSubmission_backend_failure (mApp : membership.MembershipApplication)
    (oApp : orders.OrderApplication) (net : Network) (r : Request) :
    (membership.parseMembershipAmount r ≠ 0 →
        (net (mApp.BackendHost ++ ":" ++ mApp.BackendPort) "api/v1/interest").isFailure = true →
        membership.handleFormSubmission mApp net r
          = { mApp with MembershipAmount := membership.parseMembershipAmount r,
                        MembershipResult := "Could not get interest. Sorry!" })
      ∧ (orders.parseOrderAmount r ≠ 0 →
        (net (oApp.BackendHost ++ ":" ++ oApp.BackendPort) "api/v1/interest").isFailure = true →
        orders.handleFormSubmission oApp net r
          = { oApp with OrderAmount := orders.parseOrderAmount r,
                        OrderResult := "Could not get interest. Sorry!" }) := by
  constructor
  · intro hne hfail
    have he := membership_callBackend_of_failure
      { mApp with MembershipAmount := membership.parseMembershipAmount r } net
      "api/v1/interest" hfail
    simp only [membership.handleFormSubmission]
    rw [if_neg hne, if_pos he]
  · intro hne hfail
    have he := orders_callBackend_of_failure
      { oApp with OrderAmount := orders.parseOrderAmount r } net "api/v1/interest" hfail
    simp only [orders.handleFormSubmission]
    rw [if_neg hne, if_pos he]

/-- Witness of `handleFormSubmission_backend_failure`: the amount 1000 and a
backend that answers 503, and a backend that cannot be reached. -/
theorem handleFormSubmission_backend_failure_witness :
    membership.handleFormSubmission ⟨"dev", "1.0", "interest", "8080", 0, ""⟩
        (fun _ _ => .response 503 (some "busy")) ⟨false, [("Membership", ["1000"])]⟩
        = ⟨"dev", "1.0", "interest", "8080", 1000, "Could not get interest. Sorry!"⟩
      ∧ orders.handleFormSubmission ⟨"dev", "1.0", "interest", "8080", 0, ""⟩
        (fun _ _ => .transportError) ⟨false, [("order", ["7"])]⟩
        = ⟨"dev", "1.0", "interest", "8080", 7, "Could not get interest. Sorry!"⟩ :=
  ⟨(handleFormSubmission_backend_failure ⟨"dev", "1.0", "interest", "8080", 0, ""⟩
      ⟨"dev", "1.0", "interest", "8080", 0, ""⟩ (fun _ _ => .response 503 (some "busy"))
      ⟨false, [("Membership", ["1000"])]⟩).1 (by decide) (by decide),
    (handleFormSubmission_backend_failure ⟨"dev", "1.0", "interest", "8080", 0, ""⟩
      ⟨"dev", "1.0", "interest", "8080", 0, ""⟩ (fun _ _ => .transportError)
      ⟨false, [("order", ["7"])]⟩).2 (by decide) (by decide)⟩

/-- The function `ParseInt(s, 10, 0)` returns the value 0 with a syntax error. -/
theorem strconv.ParseInt_syntax_value (l : List Char)
    (h : (strconv.ParseInt l).2 = some .ErrSyntax) : (strconv.ParseInt l).1 = 0 := by
  cases l with
  | nil => rfl
  | cons c0 t =>
    simp only [strconv.ParseInt] at h ⊢
    split_ifs at h ⊢ <;> simp_all

/-- The function `strconv.Atoi` returns the value 0 with a syntax error. -/
theorem strconv.Atoi_syntax_value (s : String)
    (h : (strconv.Atoi s).2 = some .ErrSyntax) : (strconv.Atoi s).1 = 0 := by
  obtain ⟨l⟩ := s
  unfold strconv.Atoi at h ⊢
  simp only [String.toList] at h ⊢
  split_ifs at h ⊢
  · cases l with
    | nil => rfl
    | cons c0 t =>
      simp only at h ⊢
      split_ifs at h ⊢ <;> first | rfl | (split at h <;> simp_all)
  · exact strconv.ParseInt_syntax_value l h

/-- An error of `callBackend` of the membership frontend comes from a failed GET. -/
theorem membership_callBackend_error (app : membership.MembershipApplication) (net : Network)
    (path : String) (h : (membership.callBackend app net path).2 ≠ none) :
    (net (app.BackendHost ++ ":" ++ app.BackendPort) path).isFailure = true := by
  unfold membership.callBackend at h
  cases ho : net (app.BackendHost ++ ":" ++ app.BackendPort) path with
  | transportError => rfl
  | response statusCode body =>
    rw [ho] at h
    by_cases hs : statusCode ≠ StatusOK
    · simp [HttpOutcome.isFailure, hs]
    · cases body with
      | none => simp [HttpOutcome.isFailure]
      | some text => simp [hs] at h

/-- An error of `callBackend` of the orders frontend comes from a failed GET. -/
theorem orders_callBackend_error (app : orders.OrderApplication) (net : Network)
    (path : String) (h : (orders.callBackend app net path).2 ≠ none) :
    (net (app.BackendHost ++ ":" ++ app.BackendPort) path).isFailure = true := by
  unfold orders.callBackend at h
  cases ho : net (app.BackendHost ++ ":" ++ app.BackendPort) path with
  | transportError => rfl
  | response statusCode body =>
    rw [ho] at h
    by_cases hs : statusCode ≠ StatusOK
    · simp [HttpOutcome.isFailure, hs]
    · cases body with
      | none => simp [HttpOutcome.isFailure]
      | some text => simp [hs] at h

/-- The function `offerQuote` of the membership frontend on an amount that is
not positive. -/
theorem membership_offerQuote_of_nonpos (amount rate : Int) (h : amount ≤ 0) :
    membership.offerQuote amount rate = "" := by
  simp [membership.offerQuote, h]

/-- The function `offerQuote` of the orders frontend on an amount that is not
positive. -/
theorem orders_offerQuote_of_nonpos (amount rate : Int) (h : amount ≤ 0) :
    orders.offerQuote amount rate = "" := by
  simp [orders.offerQuote, h]

/-- The function `offerQuote` of the membership frontend at the rate 0. -/
theorem membership_offerQuote_rate_zero (amount : Int) (h : 0 < amount) :
    membership.offerQuote amount 0 = "With rate 0% you will pay  0 extra interest" := by
  have hna : ¬ amount ≤ 0 := by omega
  have hw : wrapInt 0 = 0 := by decide
  simp only [membership.offerQuote, hna, if_false, mul_zero, hw]
  decide

/-- The function `offerQuote` of the orders frontend at the rate 0. -/
theorem orders_offerQuote_rate_zero (amount : Int) (h : 0 < amount) :
    orders.offerQuote amount 0 = "With rate 0% you will pay  0 extra interest" := by
  have hna : ¬ amount ≤ 0 := by omega
  have hw : wrapInt 0 = 0 := by decide
  simp only [orders.offerQuote, hna, if_false, mul_zero, hw]
  decide

/-- The value `parseMembershipAmount` returns, by the form text. -/
theorem membership_parseMembershipAmount_eq (r : Request) :
    membership.parseMembershipAmount r
      = if r.parseFormFails = true then 0 else parseOrZero (r.Form.Get "Membership") := by
  unfold membership.parseMembershipAmount
  by_cases hf : r.parseFormFails = true
  · rw [if_pos hf, if_pos hf]
  · rw [if_neg hf, if_neg hf]
    exact strconv.Atoi_orZero _

/-- The value `parseOrderAmount` returns, by the form text. -/
theorem orders_parseOrderAmount_eq (r : Request) :
    orders.parseOrderAmount r
      = if r.parseFormFails = true then 0 else parseOrZero (r.Form.Get "order") := by
  unfold orders.parseOrderAmount
  by_cases hf : r.parseFormFails = true
  · rw [if_pos hf, if_pos hf]
  · rw [if_neg hf, if_neg hf]
    exact strconv.Atoi_orZero _

/-- The amount `handleFormSubmission` of the membership frontend stores. -/
theorem membership_handleFormSubmission_amount (app : membership.MembershipApplication)
    (net : Network) (r : Request) :
    (membership.handleFormSubmission app net r).MembershipAmount
      = membership.parseMembershipAmount r := by
  unfold membership.handleFormSubmission
  simp only []
  split_ifs <;> rfl

/-- The amount `handleFormSubmission` of the orders frontend stores. -/
theorem orders_handleFormSubmission_amount (app : orders.OrderApplication)
    (net : Network) (r : Request) :
    (orders.handleFormSubmission app net r).OrderAmount = orders.parseOrderAmount r := by
  unfold orders.handleFormSubmission
  simp only []
  split_ifs <;> rfl

/-- What parse-or-zero keeps of a text: 0 when the text does not parse, and
a negative value only when the text parses as that value. -/
theorem parseOrZero_sign (text : String) :
    (decimalInteger text = none → parseOrZero text = 0)
      ∧ (0 ≤ parseOrZero text ∨ decimalInteger text = some (parseOrZero text)) := by
  unfold parseOrZero inRangeOrZero
  cases decimalInteger text with
  | none => simp
  | some v =>
    by_cases hr : minInt ≤ v ∧ v ≤ maxInt
    · simp [hr]
    · simp [hr]

/-- The method `url.Values.Get` returns the first value of a key that has one. -/
theorem Values_Get_of_first (form : Values) (key text : String) (rest : List String)
    (h : List.lookup key form = some (text :: rest)) : Values.Get form key = text := by
  unfold Values.Get
  rw [h]

/-- The method `url.Values.Get` returns the empty text for a key without a value. -/
theorem Values_Get_of_absent (form : Values) (key : String)
    (h : List.lookup key form = none ∨ List.lookup key form = some []) :
    Values.Get form key = "" := by
  unfold Values.Get
  rcases h with h | h <;> rw [h]

/-- Parse-or-zero keeps the value of a text that parses inside the range of `int`. -/
theorem parseOrZero_of_inRange (text : String) (v : Int) (h : decimalInteger text = some v)
    (hlo : minInt ≤ v) (hhi : v ≤ maxInt) : parseOrZero text = v := by
  unfold parseOrZero inRangeOrZero
  rw [h]
  simp [hlo, hhi]

/-- Parse-or-zero is 0 on a text that does not parse inside the range of `int`. -/
theorem parseOrZero_of_unparsed (text : String)
    (h : ∀ v, decimalInteger text = some v → ¬ (minInt ≤ v ∧ v ≤ maxInt)) :
    parseOrZero text = 0 := by
  unfold parseOrZero inRangeOrZero
  cases hd : decimalInteger text with
  | none => rfl
  | some v =>
    have hn := h v hd
    simp only [hn, if_false]

/-- Parse-or-zero of the empty text. -/
theorem parseOrZero_empty : parseOrZero "" = 0 := by decide

/-- The value `parseMembershipAmount` returns when `ParseForm` succeeds and the form
holds a first value for the field "Membership". -/
theorem membership_parse_of_text (form : Values) (text : String) (rest : List String)
    (h : List.lookup "Membership" form = some (text :: rest)) :
    membership.parseMembershipAmount ⟨false, form⟩ = parseOrZero text := by
  rw [membership_parseMembershipAmount_eq]
  simp only [Bool.false_eq_true, if_false]
  rw [Values_Get_of_first form "Membership" text rest h]

/-- The value `parseMembershipAmount` returns when `ParseForm` succeeds and the form
holds no value for the field "Membership". -/
theorem membership_parse_of_absent (form : Values)
    (h : List.lookup "Membership" form = none ∨ List.lookup "Membership" form = some []) :
    membership.parseMembershipAmount ⟨false, form⟩ = 0 := by
  rw [membership_parseMembershipAmount_eq]
  simp only [Bool.false_eq_true, if_false]
  rw [Values_Get_of_absent form "Membership" h]
  exact parseOrZero_empty

/-- The value `parseMembershipAmount` returns when `ParseForm` returns an error. -/
theorem membership_parse_of_form_error (form : Values) :
    membership.parseMembershipAmount ⟨true, form⟩ = 0 := by
  rw [membership_parseMembershipAmount_eq]
  simp

/-- The value `parseOrderAmount` returns when `ParseForm` succeeds and the form
holds a first value for the field "order". -/
theorem orders_parse_of_text (form : Values) (text : String) (rest : List String)
    (h : List.lookup "order" form = some (text :: rest)) :
    orders.parseOrderAmount ⟨false, form⟩ = parseOrZero text := by
  rw [orders_parseOrderAmount_eq]
  simp only [Bool.false_eq_true, if_false]
  rw [Values_Get_of_first form "order" text rest h]

/-- The value `parseOrderAmount` returns when `ParseForm` succeeds and the form
holds no value for the field "order". -/
theorem orders_parse_of_absent (form : Values)
    (h : List.lookup "order" form = none ∨ List.lookup "order" form = some []) :
    orders.parseOrderAmount ⟨false, form⟩ = 0 := by
  rw [orders_parseOrderAmount_eq]
  simp only [Bool.false_eq_true, if_false]
  rw [Values_Get_of_absent form "order" h]
  exact parseOrZero_empty

/-- The value `parseOrderAmount` returns when `ParseForm` returns an error. -/
theorem orders_parse_of_form_error (form : Values) :
    orders.parseOrderAmount ⟨true, form⟩ = 0 := by
  rw [orders_parseOrderAmount_eq]
  simp

/-- C3, as amended: parse-or-zero of the form text when `ParseForm` succeeds.
For every form, `parseMembershipAmount` and `parseOrderAmount` return exactly
the integer the first value of their field denotes when that text parses as a
base-10 integer inside the range of `int`, negative values included; they
return 0 when the text is non-numeric, empty or out of range and when the
field is absent; and they return 0, whatever the field holds, when `ParseForm`
returns an error. The result is always a plain `int`, never an error. -/
theorem parseAmount_parse_or_zero (form : Values) :
    ((∀ text rest v, List.lookup "Membership" form = some (text :: rest) →
          decimalInteger text = some v → minInt ≤ v → v ≤ maxInt →
          membership.parseMembershipAmount ⟨false, form⟩ = v)
        ∧ (∀ text rest, List.lookup "Membership" form = some (text :: rest) →
          (∀ v, decimalInteger text = some v → ¬ (minInt ≤ v ∧ v ≤ maxInt)) →
          membership.parseMembershipAmount ⟨false, form⟩ = 0)
        ∧ (List.lookup "Membership" form = none ∨ List.lookup "Membership" form = some [] →
          membership.parseMembershipAmount ⟨false, form⟩ = 0)
        ∧ membership.parseMembershipAmount ⟨true, form⟩ = 0)
      ∧ ((∀ text rest v, List.lookup "order" form = some (text :: rest) →
          decimalInteger text = some v → minInt ≤ v → v ≤ maxInt →
          orders.parseOrderAmount ⟨false, form⟩ = v)
        ∧ (∀ text rest, List.lookup "order" form = some (text :: rest) →
          (∀ v, decimalInteger text = some v → ¬ (minInt ≤ v ∧ v ≤ maxInt)) →
          orders.parseOrderAmount ⟨false, form⟩ = 0)
        ∧ (List.lookup "order" form = none ∨ List.lookup "order" form = some [] →
          orders.parseOrderAmount ⟨false, form⟩ = 0)
        ∧ orders.parseOrderAmount ⟨true, form⟩ = 0) := by
  constructor
  · refine ⟨?_, ?_, ?_, ?_⟩
    · intro text rest v hl hd hlo hhi
      rw [membership_parse_of_text form text rest hl]
      exact parseOrZero_of_inRange text v hd hlo hhi
    · intro text rest hl hd
      rw [membership_parse_of_text form text rest hl]
      exact parseOrZero_of_unparsed text hd
    · intro hl
      exact membership_parse_of_absent form hl
    · exact membership_parse_of_form_error form
  · refine ⟨?_, ?_, ?_, ?_⟩
    · intro text rest v hl hd hlo hhi
      rw [orders_parse_of_text form text rest hl]
      exact parseOrZero_of_inRange text v hd hlo hhi
    · intro text rest hl hd
      rw [orders_parse_of_text form text rest hl]
      exact parseOrZero_of_unparsed text hd
    · intro hl
      exact orders_parse_of_absent form hl
    · exact orders_parse_of_form_error form

/-- Witness of `parseAmount_parse_or_zero`: the texts "-5" and "1000" are
returned as -5 and 1000, the texts "abc" and "9223372036854775808" and an
absent field as 0. -/
theorem parseAmount_parse_or_zero_witness :
    membership.parseMembershipAmount ⟨false, [("Membership", ["-5"])]⟩ = -5
      ∧ membership.parseMembershipAmount ⟨false, [("Membership", ["abc"])]⟩ = 0
      ∧ membership.parseMembershipAmount ⟨false, [("other", ["5"])]⟩ = 0
      ∧ orders.parseOrderAmount ⟨false, [("other", ["5"]), ("order", ["1000", "7"])]⟩ = 1000
      ∧ orders.parseOrderAmount ⟨false, [("order", ["9223372036854775808"])]⟩ = 0 :=
  ⟨(parseAmount_parse_or_zero [("Membership", ["-5"])]).1.1 "-5" [] (-5)
      (by decide) (by decide) (by decide) (by decide),
    (parseAmount_parse_or_zero [("Membership", ["abc"])]).1.2.1 "abc" []
      (by decide) (by decide),
    (parseAmount_parse_or_zero [("other", ["5"])]).1.2.2.1 (by decide),
    (parseAmount_parse_or_zero [("other", ["5"]), ("order", ["1000", "7"])]).2.1 "1000" ["7"]
      1000 (by decide) (by decide) (by decide) (by decide),
    (parseAmount_parse_or_zero [("order", ["9223372036854775808"])]).2.2.1
      "9223372036854775808" [] (by decide) (by decide)⟩

/-- C3 fails as stated. On a request whose `ParseForm` returns an error while
the field holds the text "5", which parses as the integer 5, both functions
return 0 and not 5. -/
theorem parseAmount_form_error_counterexample :
    decimalInteger "5" = some 5 ∧ parseOrZero "5" = 5
      ∧ Values.Get [("Membership", ["5"])] "Membership" = "5"
      ∧ membership.parseMembershipAmount ⟨true, [("Membership", ["5"])]⟩ = 0
      ∧ membership.parseMembershipAmount ⟨false, [("Membership", ["5"])]⟩ = 5
      ∧ Values.Get [("order", ["5"])] "order" = "5"
      ∧ orders.parseOrderAmount ⟨true, [("order", ["5"])]⟩ = 0
      ∧ orders.parseOrderAmount ⟨false, [("order", ["5"])]⟩ = 5 := by
  refine ⟨by decide, by decide, by decide, by decide, by decide, by decide, by decide, by decide⟩

/-- C6, as amended: for every request, the amount `handleFormSubmission`
stores is the value of `parseMembershipAmount` / `parseOrderAmount`. When
`ParseForm` succeeds, a form text that parses as a base-10 integer inside the
range of `int` is stored as that integer, a negative one included (it is not
turned into 0); a text that is non-numeric, empty or out of range, and an
absent field, are stored as 0; so a stored amount below zero is the value of
the form text. When `ParseForm` returns an error, 0 is stored. -/
theorem handleFormSubmission_stored_amount (mApp : membership.MembershipApplication)
    (oApp : orders.OrderApplication) (net : Network) (form : Values) :
    ((∀ r, (membership.handleFormSubmission mApp net r).MembershipAmount = membership.parseMembershipAmount r)
        ∧ (∀ text rest v, List.lookup "Membership" form = some (text :: rest) →
          decimalInteger text = some v → minInt ≤ v → v ≤ maxInt →
          (membership.handleFormSubmission mApp net ⟨false, form⟩).MembershipAmount = v)
        ∧ (∀ text rest, List.lookup "Membership" form = some (text :: rest) →
          (∀ v, decimalInteger text = some v → ¬ (minInt ≤ v ∧ v ≤ maxInt)) →
          (membership.handleFormSubmission mApp net ⟨false, form⟩).MembershipAmount = 0)
        ∧ (List.lookup "Membership" form = none ∨ List.lookup "Membership" form = some [] →
          (membership.handleFormSubmission mApp net ⟨false, form⟩).MembershipAmount = 0)
        ∧ (∀ text rest, List.lookup "Membership" form = some (text :: rest) →
          (membership.handleFormSubmission mApp net ⟨false, form⟩).MembershipAmount < 0 →
          decimalInteger text
            = some (membership.handleFormSubmission mApp net ⟨false, form⟩).MembershipAmount)
        ∧ (membership.handleFormSubmission mApp net ⟨true, form⟩).MembershipAmount = 0)
      ∧ ((∀ r, (orders.handleFormSubmission oApp net r).OrderAmount = orders.parseOrderAmount r)
        ∧ (∀ text rest v, List.lookup "order" form = some (text :: rest) →
          decimalInteger text = some v → minInt ≤ v → v ≤ maxInt →
          (orders.handleFormSubmission oApp net ⟨false, form⟩).OrderAmount = v)
        ∧ (∀ text rest, List.lookup "order" form = some (text :: rest) →
          (∀ v, decimalInteger text = some v → ¬ (minInt ≤ v ∧ v ≤ maxInt)) →
          (orders.handleFormSubmission oApp net ⟨false, form⟩).OrderAmount = 0)
        ∧ (List.lookup "order" form = none ∨ List.lookup "order" form = some [] →
          (orders.handleFormSubmission oApp net ⟨false, form⟩).OrderAmount = 0)
        ∧ (∀ text rest, List.lookup "order" form = some (text :: rest) →
          (orders.handleFormSubmission oApp net ⟨false, form⟩).OrderAmount < 0 →
          decimalInteger text
            = some (orders.handleFormSubmission oApp net ⟨false, form⟩).OrderAmount)
        ∧ (orders.handleFormSubmission oApp net ⟨true, form⟩).OrderAmount = 0) := by
  constructor
  · refine ⟨?_, ?_, ?_, ?_, ?_, ?_⟩
    · intro r
      exact membership_handleFormSubmission_amount _ net r
    · intro text rest v hl hd hlo hhi
      rw [membership_handleFormSubmission_amount, membership_parse_of_text form text rest hl]
      exact parseOrZero_of_inRange text v hd hlo hhi
    · intro text rest hl hd
      rw [membership_handleFormSubmission_amount, membership_parse_of_text form text rest hl]
      exact parseOrZero_of_unparsed text hd
    · intro hl
      rw [membership_handleFormSubmission_amount]
      exact membership_parse_of_absent form hl
    · intro text rest hl
      rw [membership_handleFormSubmission_amount, membership_parse_of_text form text rest hl]
      intro hneg
      rcases (parseOrZero_sign text).2 with h | h
      · omega
      · exact h
    · rw [membership_handleFormSubmission_amount]
      exact membership_parse_of_form_error form
  · refine ⟨?_, ?_, ?_, ?_, ?_, ?_⟩
    · intro r
      exact orders_handleFormSubmission_amount _ net r
    · intro text rest v hl hd hlo hhi
      rw [orders_handleFormSubmission_amount, orders_parse_of_text form text rest hl]
      exact parseOrZero_of_inRange text v hd hlo hhi
    · intro text rest hl hd
      rw [orders_handleFormSubmission_amount, orders_parse_of_text form text rest hl]
      exact parseOrZero_of_unparsed text hd
    · intro hl
      rw [orders_handleFormSubmission_amount]
      exact orders_parse_of_absent form hl
    · intro text rest hl
      rw [orders_handleFormSubmission_amount, orders_parse_of_text form text rest hl]
      intro hneg
      rcases (parseOrZero_sign text).2 with h | h
      · omega
      · exact h
    · rw [orders_handleFormSubmission_amount]
      exact orders_parse_of_form_error form

/-- Witness of `handleFormSubmission_stored_amount`: the form text "-5" is
stored as -5 and the form text "abc" as 0, by both variants. -/
theorem handleFormSubmission_stored_amount_witness :
    (membership.handleFormSubmission ⟨"dev", "1.0", "interest", "8080", 9, ""⟩
        (fun _ _ => .response 200 (some "5"))
        ⟨false, [("Membership", ["-5"])]⟩).MembershipAmount = -5
      ∧ (membership.handleFormSubmission ⟨"dev", "1.0", "interest", "8080", 9, ""⟩
        (fun _ _ => .response 200 (some "5"))
        ⟨false, [("Membership", ["abc"])]⟩).MembershipAmount = 0
      ∧ (orders.handleFormSubmission ⟨"dev", "1.0", "interest", "8080", 9, ""⟩
        (fun _ _ => .response 200 (some "5")) ⟨false, [("order", ["-5"])]⟩).OrderAmount = -5
      ∧ (orders.handleFormSubmission ⟨"dev", "1.0", "interest", "8080", 9, ""⟩
        (fun _ _ => .response 200 (some "5")) ⟨false, [("order", ["abc"])]⟩).OrderAmount = 0 :=
  ⟨(handleFormSubmission_stored_amount ⟨"dev", "1.0", "interest", "8080", 9, ""⟩
      ⟨"dev", "1.0", "interest", "8080", 9, ""⟩ (fun _ _ => .response 200 (some "5"))
      [("Membership", ["-5"])]).1.2.1 "-5" [] (-5) (by decide) (by decide) (by decide)
      (by decide),
    (handleFormSubmission_stored_amount ⟨"dev", "1.0", "interest", "8080", 9, ""⟩
      ⟨"dev", "1.0", "interest", "8080", 9, ""⟩ (fun _ _ => .response 200 (some "5"))
      [("Membership", ["abc"])]).1.2.2.1 "abc" [] (by decide) (by decide),
    (handleFormSubmission_stored_amount ⟨"dev", "1.0", "interest", "8080", 9, ""⟩
      ⟨"dev", "1.0", "interest", "8080", 9, ""⟩ (fun _ _ => .response 200 (some "5"))
      [("order", ["-5"])]).2.2.1 "-5" [] (-5) (by decide) (by decide) (by decide)
      (by decide),
    (handleFormSubmission_stored_amount ⟨"dev", "1.0", "interest", "8080", 9, ""⟩
      ⟨"dev", "1.0", "interest", "8080", 9, ""⟩ (fun _ _ => .response 200 (some "5"))
      [("order", ["abc"])]).2.2.2.1 "abc" [] (by decide) (by decide)⟩

/-- C6 fails as stated. The form text "-5" is stored as the amount -5 by both
variants, not as 0. -/
theorem handleFormSubmission_negative_amount_counterexample :
    (membership.handleFormSubmission ⟨"dev", "1.0", "interest", "8080", 0, ""⟩
        (fun _ _ => .response 200 (some "5")) ⟨false, [("Membership", ["-5"])]⟩).MembershipAmount
        = -5
      ∧ (orders.handleFormSubmission ⟨"dev", "1.0", "interest", "8080", 0, ""⟩
        (fun _ _ => .response 200 (some "5")) ⟨false, [("order", ["-5"])]⟩).OrderAmount = -5
      ∧ ¬ ((0 : Int) ≤ -5) := by
  refine ⟨by decide, by decide, by decide⟩

/-- The rate of a body with a syntax error. For every request whose amount
parses to a value above zero and every GET of the interest path answered with
status 200 and a body that `strconv.Atoi` rejects with a syntax error,
`handleFormSubmission` of both variants takes the rate 0 and sets the result
text to exactly "With rate 0% you will pay  0 extra interest". -/
theorem handleFormSubmission_syntax_error_rate (mApp : membership.MembershipApplication)
    (oApp : orders.OrderApplication) (net : Network) (r : Request) (body : String)
    (hbody : (strconv.Atoi body).2 = some .ErrSyntax) :
    (0 < membership.parseMembershipAmount r →
        net (mApp.BackendHost ++ ":" ++ mApp.BackendPort) "api/v1/interest"
          = .response StatusOK (some body) →
        (membership.handleFormSubmission mApp net r).MembershipResult
          = "With rate 0% you will pay  0 extra interest")
      ∧ (0 < orders.parseOrderAmount r →
        net (oApp.BackendHost ++ ":" ++ oApp.BackendPort) "api/v1/interest"
          = .response StatusOK (some body) →
        (orders.handleFormSubmission oApp net r).OrderResult
          = "With rate 0% you will pay  0 extra interest") := by
  have hv := strconv.Atoi_syntax_value body hbody
  constructor
  · intro hpos hnet
    have hne : ¬ membership.parseMembershipAmount r = 0 := by omega
    have hc := membership_callBackend_of_success
      { mApp with MembershipAmount := membership.parseMembershipAmount r } net
      "api/v1/interest" body hnet
    simp only [membership.handleFormSubmission]
    rw [if_neg hne, hc]
    simp only [ne_eq, not_true_eq_false, if_false, hv]
    exact membership_offerQuote_rate_zero _ hpos
  · intro hpos hnet
    have hne : ¬ orders.parseOrderAmount r = 0 := by omega
    have hc := orders_callBackend_of_success
      { oApp with OrderAmount := orders.parseOrderAmount r } net "api/v1/interest" body hnet
    simp only [orders.handleFormSubmission]
    rw [if_neg hne, hc]
    simp only [ne_eq, not_true_eq_false, if_false, hv]
    exact orders_offerQuote_rate_zero _ hpos

/-- The scenario of the specification, the body "abc", as an instance of
`handleFormSubmission_syntax_error_rate`. -/
theorem handleFormSubmission_syntax_error_rate_witness :
    (strconv.Atoi "abc").2 = some .ErrSyntax
      ∧ (membership.handleFormSubmission ⟨"dev", "1.0", "interest", "8080", 0, ""⟩
          (fun _ _ => .response 200 (some "abc"))
          ⟨false, [("Membership", ["1000"])]⟩).MembershipResult
        = "With rate 0% you will pay  0 extra interest"
      ∧ (orders.handleFormSubmission ⟨"dev", "1.0", "interest", "8080", 0, ""⟩
          (fun _ _ => .response 200 (some "abc")) ⟨false, [("order", ["1000"])]⟩).OrderResult
        = "With rate 0% you will pay  0 extra interest" :=
  ⟨by decide,
    (handleFormSubmission_syntax_error_rate ⟨"dev", "1.0", "interest", "8080", 0, ""⟩
      ⟨"dev", "1.0", "interest", "8080", 0, ""⟩ (fun _ _ => .response 200 (some "abc"))
      ⟨false, [("Membership", ["1000"])]⟩ "abc" (by decide)).1 (by decide) (by decide),
    (handleFormSubmission_syntax_error_rate ⟨"dev", "1.0", "interest", "8080", 0, ""⟩
      ⟨"dev", "1.0", "interest", "8080", 0, ""⟩ (fun _ _ => .response 200 (some "abc"))
      ⟨false, [("order", ["1000"])]⟩ "abc" (by decide)).2 (by decide) (by decide)⟩

/-- C8, the code at the failing input. The body "9223372036854775808", one
above the largest `int`, does not parse as an `int`: `strconv.Atoi` returns
the value 9223372036854775807 with a range error. As a form text the same
text is turned into 0 by `parseMembershipAmount` / `parseOrderAmount`, which
check the error; `handleFormSubmission` drops the error, so with the amount 1
the result text carries the rate 9223372036854775807 and not the rate 0. The
same happens for the body "99999999999999999999x", which is not a numeral. -/
theorem handleFormSubmission_out_of_range_rate :
    strconv.Atoi "9223372036854775808" = (9223372036854775807, some .ErrRange)
      ∧ parseOrZero "9223372036854775808" = 0
      ∧ membership.parseMembershipAmount ⟨false, [("Membership", ["9223372036854775808"])]⟩ = 0
      ∧ orders.parseOrderAmount ⟨false, [("order", ["9223372036854775808"])]⟩ = 0
      ∧ membership.handleFormSubmission ⟨"dev", "1.0", "interest", "8080", 0, ""⟩
          (fun _ _ => .response 200 (some "9223372036854775808"))
          ⟨false, [("Membership", ["1"])]⟩
        = ⟨"dev", "1.0", "interest", "8080", 1,
            "With rate 9223372036854775807% you will pay  92233720368547758 extra interest"⟩
      ∧ orders.handleFormSubmission ⟨"dev", "1.0", "interest", "8080", 0, ""⟩
          (fun _ _ => .response 200 (some "9223372036854775808"))
          ⟨false, [("order", ["1"])]⟩
        = ⟨"dev", "1.0", "interest", "8080", 1,
            "With rate 9223372036854775807% you will pay  92233720368547758 extra interest"⟩
      ∧ "With rate 9223372036854775807% you will pay  92233720368547758 extra interest"
        ≠ "With rate 0% you will pay  0 extra interest"
      ∧ decimalInteger "99999999999999999999x" = none
      ∧ strconv.Atoi "99999999999999999999x" = (9223372036854775807, some .ErrRange)
      ∧ (membership.handleFormSubmission ⟨"dev", "1.0", "interest", "8080", 0, ""⟩
          (fun _ _ => .response 200 (some "99999999999999999999x"))
          ⟨false, [("Membership", ["1"])]⟩).MembershipResult
        = "With rate 9223372036854775807% you will pay  92233720368547758 extra interest" := by
  refine ⟨by decide, by decide, by decide, by decide, by decide, by decide, by decide,
    by decide, by decide, by decide⟩

/-- C5, as amended: after `handleFormSubmission` has handled a request whose
amount parses to a value other than zero (any backend outcome, any prior
state), if the stored result text is not empty then the stored amount is
above zero, or it is below zero, the GET of the interest path failed and the
result text is the fallback sentence. -/
theorem handleFormSubmission_nonempty_result (mApp : membership.MembershipApplication)
    (oApp : orders.OrderApplication) (net : Network) (r : Request) :
    (membership.parseMembershipAmount r ≠ 0 →
        (membership.handleFormSubmission mApp net r).MembershipResult ≠ "" →
        0 < (membership.handleFormSubmission mApp net r).MembershipAmount
          ∨ ((membership.handleFormSubmission mApp net r).MembershipAmount < 0
            ∧ (net (mApp.BackendHost ++ ":" ++ mApp.BackendPort) "api/v1/interest").isFailure
                = true
            ∧ (membership.handleFormSubmission mApp net r).MembershipResult
                = "Could not get interest. Sorry!"))
      ∧ (orders.parseOrderAmount r ≠ 0 →
        (orders.handleFormSubmission oApp net r).OrderResult ≠ "" →
        0 < (orders.handleFormSubmission oApp net r).OrderAmount
          ∨ ((orders.handleFormSubmission oApp net r).OrderAmount < 0
            ∧ (net (oApp.BackendHost ++ ":" ++ oApp.BackendPort) "api/v1/interest").isFailure
                = true
            ∧ (orders.handleFormSubmission oApp net r).OrderResult
                = "Could not get interest. Sorry!")) := by
  constructor
  · intro hne hres
    rw [membership_handleFormSubmission_amount]
    by_cases hpos : 0 < membership.parseMembershipAmount r
    · exact Or.inl hpos
    · right
      have hneg : membership.parseMembershipAmount r < 0 := by omega
      simp only [membership.handleFormSubmission] at hres ⊢
      rw [if_neg hne] at hres ⊢
      by_cases he : (membership.callBackend
          { mApp with MembershipAmount := membership.parseMembershipAmount r } net
          "api/v1/interest").2 ≠ none
      · rw [if_pos he]
        exact ⟨hneg, membership_callBackend_error _ net _ he, rfl⟩
      · rw [if_neg he] at hres
        exact absurd (membership_offerQuote_of_nonpos _ _ (by omega)) hres
  · intro hne hres
    rw [orders_handleFormSubmission_amount]
    by_cases hpos : 0 < orders.parseOrderAmount r
    · exact Or.inl hpos
    · right
      have hneg : orders.parseOrderAmount r < 0 := by omega
      simp only [orders.handleFormSubmission] at hres ⊢
      rw [if_neg hne] at hres ⊢
      by_cases he : (orders.callBackend
          { oApp with OrderAmount := orders.parseOrderAmount r } net "api/v1/interest").2 ≠ none
      · rw [if_pos he]
        exact ⟨hneg, orders_callBackend_error _ net _ he, rfl⟩
      · rw [if_neg he] at hres
        exact absurd (orders_offerQuote_of_nonpos _ _ (by omega)) hres

/-- Witness of `handleFormSubmission_nonempty_result`: the amount 1000 with a
backend that answers 5, and the amount -5 with a backend that cannot be
reached. -/
theorem handleFormSubmission_nonempty_result_witness :
    ((0 : Int) < (membership.handleFormSubmission ⟨"dev", "1.0", "interest", "8080", 0, ""⟩
          (fun _ _ => .response 200 (some "5"))
          ⟨false, [("Membership", ["1000"])]⟩).MembershipAmount
        ∨ ((membership.handleFormSubmission ⟨"dev", "1.0", "interest", "8080", 0, ""⟩
            (fun _ _ => .response 200 (some "5"))
            ⟨false, [("Membership", ["1000"])]⟩).MembershipAmount < 0
          ∧ HttpOutcome.isFailure (.response 200 (some "5")) = true
          ∧ (membership.handleFormSubmission ⟨"dev", "1.0", "interest", "8080", 0, ""⟩
            (fun _ _ => .response 200 (some "5"))
            ⟨false, [("Membership", ["1000"])]⟩).MembershipResult
              = "Could not get interest. Sorry!"))
      ∧ ((0 : Int) < (orders.handleFormSubmission ⟨"dev", "1.0", "interest", "8080", 0, ""⟩
          (fun _ _ => .transportError) ⟨false, [("order", ["-5"])]⟩).OrderAmount
        ∨ ((orders.handleFormSubmission ⟨"dev", "1.0", "interest", "8080", 0, ""⟩
            (fun _ _ => .transportError) ⟨false, [("order", ["-5"])]⟩).OrderAmount < 0
          ∧ HttpOutcome.isFailure .transportError = true
          ∧ (orders.handleFormSubmission ⟨"dev", "1.0", "interest", "8080", 0, ""⟩
            (fun _ _ => .transportError) ⟨false, [("order", ["-5"])]⟩).OrderResult
              = "Could not get interest. Sorry!")) :=
  ⟨(handleFormSubmission_nonempty_result ⟨"dev", "1.0", "interest", "8080", 0, ""⟩
      ⟨"dev", "1.0", "interest", "8080", 0, ""⟩ (fun _ _ => .response 200 (some "5"))
      ⟨false, [("Membership", ["1000"])]⟩).1 (by decide) (by decide),
    (handleFormSubmission_nonempty_result ⟨"dev", "1.0", "interest", "8080", 0, ""⟩
      ⟨"dev", "1.0", "interest", "8080", 0, ""⟩ (fun _ _ => .transportError)
      ⟨false, [("order", ["-5"])]⟩).2 (by decide) (by decide)⟩

/-- C5 fails as stated. From a state with an empty result, the form text "-5"
and a backend that answers 503 leave the amount -5 stored next to the result
text "Could not get interest. Sorry!", which is not empty. -/
theorem handleFormSubmission_nonempty_result_counterexample :
    membership.handleFormSubmission ⟨"dev", "1.0", "interest", "8080", 0, ""⟩
        (fun _ _ => .response 503 (some "busy")) ⟨false, [("Membership", ["-5"])]⟩
        = ⟨"dev", "1.0", "interest", "8080", -5, "Could not get interest. Sorry!"⟩
      ∧ orders.handleFormSubmission ⟨"dev", "1.0", "interest", "8080", 0, ""⟩
        (fun _ _ => .response 503 (some "busy")) ⟨false, [("order", ["-5"])]⟩
        = ⟨"dev", "1.0", "interest", "8080", -5, "Could not get interest. Sorry!"⟩
      ∧ "Could not get interest. Sorry!" ≠ "" ∧ ¬ ((0 : Int) < -5) := by
  refine ⟨by decide, by decide, by decide, by decide⟩

/-- C7, the code at the failing input. A first request with the amount 1000
leaves its quote in the application; a second request without a form field
then stores the amount 0 and keeps the quote of the first request, while the
same second request on a fresh application with the same configuration ends
with an empty result. -/
theorem home_keeps_result_of_earlier_request :
    membership.home ⟨"dev", "", "interest", "8080", 0, ""⟩
        (fun _ path => if path = "version" then .response 200 (some "1.0")
          else .response 200 (some "5"))
        ⟨false, [("Membership", ["1000"])]⟩
        = ⟨"dev", "1.0", "interest", "8080", 1000,
            "With rate 5% you will pay  50 extra interest"⟩
      ∧ membership.home
        ⟨"dev", "1.0", "interest", "8080", 1000, "With rate 5% you will pay  50 extra interest"⟩
        (fun _ path => if path = "version" then .response 200 (some "1.0")
          else .response 200 (some "5"))
        ⟨false, []⟩
        = ⟨"dev", "1.0", "interest", "8080", 0, "With rate 5% you will pay  50 extra interest"⟩
      ∧ membership.home ⟨"dev", "", "interest", "8080", 0, ""⟩
        (fun _ path => if path = "version" then .response 200 (some "1.0")
          else .response 200 (some "5"))
        ⟨false, []⟩
        = ⟨"dev", "1.0", "interest", "8080", 0, ""⟩
      ∧ orders.home
        ⟨"dev", "1.0", "interest", "8080", 1000, "With rate 5% you will pay  50 extra interest"⟩
        (fun _ path => if path = "version" then .response 200 (some "1.0")
          else .response 200 (some "5"))
        ⟨false, []⟩
        = ⟨"dev", "1.0", "interest", "8080", 0, "With rate 5% you will pay  50 extra interest"⟩
      ∧ orders.home ⟨"dev", "", "interest", "8080", 0, ""⟩
        (fun _ path => if path = "version" then .response 200 (some "1.0")
          else .response 200 (some "5"))
        ⟨false, []⟩
        = ⟨"dev", "1.0", "interest", "8080", 0, ""⟩ := by
  refine ⟨by decide, by decide, by decide, by decide, by decide⟩

/-- When the amount parses to a value other than zero, the state `home` of the
membership frontend leaves depends on the prior state through the
configuration fields only. -/
theorem membership_home_nonzero_amount (a b : membership.MembershipApplication) (net : Network)
    (r : Request) (hv : a.AppVersion = b.AppVersion) (hh : a.BackendHost = b.BackendHost)
    (hp : a.BackendPort = b.BackendPort) (hne : membership.parseMembershipAmount r ≠ 0) :
    membership.home a net r = membership.home b net r := by
  simp only [membership.home, membership.handleFormSubmission, membership.findBackendVersion,
    membership.callBackend, hv, hh, hp]
  rw [if_neg hne, if_neg hne]

/-- When the amount parses to a value other than zero, the state `home` of the
orders frontend leaves depends on the prior state through the configuration
fields only. -/
theorem orders_home_nonzero_amount (a b : orders.OrderApplication) (net : Network)
    (r : Request) (hv : a.AppVersion = b.AppVersion) (hh : a.BackendHost = b.BackendHost)
    (hp : a.BackendPort = b.BackendPort) (hne : orders.parseOrderAmount r ≠ 0) :
    orders.home a net r = orders.home b net r := by
  simp only [orders.home, orders.handleFormSubmission, orders.findBackendVersion,
    orders.callBackend, hv, hh, hp]
  rw [if_neg hne, if_neg hne]
